import Mathlib

/-!
Verification of the traffic data-cleaning module
src/traffic-ml-system/src/data/clean_traffic.py.

The pandas DataFrame is embedded shallowly: a table is a list of column
names together with a list of labelled rows, where a label is the pandas
integer index of the row (`read_csv` produces the default RangeIndex
0, 1, 2, ...) and a row is an association list from column name to cell
value.  Cell values are strings, integers, the missing marker (Python
None / NaN) or a parsed timestamp.  The permissive timestamp parser
`pd.to_datetime(_, errors="coerce")` is treated as a parameter
`p : Value -> Option Nat` of the development (`none` plays the role of
NaT); every theorem holds for an arbitrary parser.  Python exceptions
are modelled with `Except PyError`.  String handling is modelled over
the ASCII fragment: whitespace is the ASCII whitespace accepted by
`str.strip` and `int`, and digits are the ASCII digits.
-/

/-- Python exceptions that the module can raise. `valueError` stands for
`ValueError` (failed `int` conversion, failed strict `to_datetime`) and
`keyError` for `KeyError` (missing column or index label). -/
inductive PyError where
  | valueError
  | keyError
  deriving DecidableEq, Repr

/-- A cell of the table: a raw string, an integer (pandas int64), the
missing marker (Python `None` or NaN), or a parsed timestamp. -/
inductive Value where
  | vStr (s : String)
  | vInt (n : Int)
  | vNone
  | vTime (t : Nat)
  deriving DecidableEq, Repr

/-- A row: an association list from column name to cell value. -/
abbrev Row := List (String × Value)

/-- A pandas DataFrame: the column names and the rows, each row carrying
its integer index label. -/
structure DataFrame where
  cols : List String
  rows : List (Nat × Row)
  deriving DecidableEq, Repr

/-- Python `str()` applied to a cell value. `vNone` prints as `"None"`
(a NaN cell would print `"nan"`; both behave identically everywhere the
module inspects the string, since neither parses as an integer or a
timestamp). -/
def pyStr : Value → String
  | .vStr s => s
  | .vInt n => toString n
  | .vNone => "None"
  | .vTime t => "Timestamp(" ++ toString t ++ ")"

/-- Model of `pandas.Series.get`: the value of column `c` in row `r`, or the
missing marker when the key is absent (`Series.get` returns `None`
instead of raising). -/
def seriesGet (r : Row) (c : String) : Value :=
  match r.lookup c with
  | some v => v
  | none => .vNone

/-- ASCII whitespace as stripped by Python `str.strip` and `int`. -/
def asciiWs (c : Char) : Bool :=
  c == ' ' || (9 ≤ c.toNat && c.toNat ≤ 13)

/-- ASCII decimal digit. -/
def isAsciiDigit (c : Char) : Bool :=
  '0' ≤ c && c ≤ '9'

/-- Numeric value of an ASCII digit. -/
def digitVal (c : Char) : Nat := c.toNat - 48

/-- Drop leading ASCII whitespace. -/
def stripFront (cs : List Char) : List Char := cs.dropWhile asciiWs

/-- Drop trailing ASCII whitespace. -/
def stripBack (cs : List Char) : List Char :=
  (cs.reverse.dropWhile asciiWs).reverse

/-- Drop leading and trailing ASCII whitespace, as `str.strip()`. -/
def asciiStrip (cs : List Char) : List Char := stripBack (stripFront cs)

/-- Digit run of a Python integer literal after its first digit: digits
interleaved with single underscores, each underscore followed by a
digit, accumulating the numeric value.  This is the grammar `int`
accepts after the optional sign and the first digit. -/
def pyDigits : List Char → Nat → Option Nat
  | [], acc => some acc
  | '_' :: rest, acc =>
    match rest with
    | c :: rest2 =>
      if isAsciiDigit c then pyDigits rest2 (10 * acc + digitVal c) else none
    | [] => none
  | c :: rest, acc =>
    if isAsciiDigit c then pyDigits rest (10 * acc + digitVal c) else none

/-- Unsigned part of a Python integer literal: a first digit followed by
`pyDigits`. -/
def pyUnsigned : List Char → Option Nat
  | [] => none
  | c :: rest => if isAsciiDigit c then pyDigits rest (digitVal c) else none

/-- Signed Python integer literal (after stripping): optional `+` or `-`
followed by the unsigned part. -/
def pyIntAux (cs : List Char) : Option Int :=
  if cs.head? = some '+' then (pyUnsigned cs.tail).map (fun n => (n : Int))
  else if cs.head? = some '-' then (pyUnsigned cs.tail).map (fun n => -(n : Int))
  else (pyUnsigned cs).map (fun n => (n : Int))

/-- Python `int(s)` on a string: strip whitespace, then parse a signed
base-10 integer literal (underscore digit grouping allowed); `none`
models a raised `ValueError`. -/
def pythonIntStr (s : String) : Option Int :=
  pyIntAux (asciiStrip s.toList)

/-- Python `s.strip()`. -/
def pyStrip (s : String) : String := String.mk (asciiStrip s.toList)

/-- The guarded conversion `int(s)` as it appears inside the `try` block
of `is_positive_integer`: `ValueError` when the parse fails. -/
def int_try (s : String) : Except PyError Int :=
  match pythonIntStr s with
  | some n => .ok n
  | none => .error .valueError

/-- Function `is_positive_integer` from clean_traffic.py lines 100-120: try
`int(s)`; on `ValueError` return `False`; otherwise return whether the
integer is strictly positive. -/
def is_positive_integer (s : String) : Except PyError Bool :=
  match int_try s with
  | .error .valueError => .ok false
  | .error e => .error e
  | .ok num => .ok (decide (0 < num))

/-- The boolean computed by `is_positive_integer` (which never raises,
see the C9 theorem). -/
def is_positive_integerB (s : String) : Bool :=
  match pythonIntStr s with
  | some n => decide (0 < n)
  | none => false

/-- Model of `DataFrame.drop(index=bad)` with a list of labels: raises `KeyError`
if some label is absent, otherwise removes every row whose label occurs
in `bad`. -/
def dropRows (df : DataFrame) (bad : List Nat) : Except PyError DataFrame :=
  if bad.all (fun l => decide (l ∈ df.rows.map Prod.fst)) then
    .ok ⟨df.cols, df.rows.filter (fun q => decide (q.1 ∉ bad))⟩
  else .error .keyError

/-- The row loop of `remove_invalid_rows` (clean_traffic.py lines
171-196): iterate over the rows, and collect the labels of the rows that
fail one of the checks (unparseable timestamp, non-positive-integer
segment / target / id, id already seen).  `p` models
`pd.to_datetime(_, errors="coerce")`, `seen` the set `seen_ids`. -/
def rivLoop (p : Value → Option Nat) (sc tc gc ic : String) :
    List (Nat × Row) → List Int → Except PyError (List Nat)
  | [], _ => .ok []
  | (l, r) :: rest, seen =>
    match p (seriesGet r tc) with
    | none => (rivLoop p sc tc gc ic rest seen).map (fun bs => l :: bs)
    | some _ => do
      let bj ← is_positive_integer (pyStr (seriesGet r sc))
      if !bj then (rivLoop p sc tc gc ic rest seen).map (fun bs => l :: bs)
      else do
        let bv ← is_positive_integer (pyStr (seriesGet r gc))
        if !bv then (rivLoop p sc tc gc ic rest seen).map (fun bs => l :: bs)
        else do
          let bi ← is_positive_integer (pyStr (seriesGet r ic))
          if !bi then (rivLoop p sc tc gc ic rest seen).map (fun bs => l :: bs)
          else
            match pythonIntStr (pyStrip (pyStr (seriesGet r ic))) with
            | none => .error .valueError
            | some idInt =>
              if idInt ∈ seen then
                (rivLoop p sc tc gc ic rest seen).map (fun bs => l :: bs)
              else rivLoop p sc tc gc ic rest (idInt :: seen)

/-- Function `remove_invalid_rows` (clean_traffic.py lines 141-198): collect the
bad labels in one pass, then drop them at the end.  In the source the
column names default to `"Junction"`, `"DateTime"`, `"Vehicles"`,
`"ID"`; here they are always passed explicitly. -/
def remove_invalid_rows (p : Value → Option Nat) (df : DataFrame)
    (sc tc gc ic : String) :
    Except PyError DataFrame := do
  let bad ← rivLoop p sc tc gc ic df.rows []
  dropRows df bad

/-- Pure form of the bad-label collection (`rivLoop` never raises, as
proved below). -/
def collectBad (p : Value → Option Nat) (sc tc gc ic : String) :
    List (Nat × Row) → List Int → List Nat
  | [], _ => []
  | (l, r) :: rest, seen =>
    match p (seriesGet r tc) with
    | none => l :: collectBad p sc tc gc ic rest seen
    | some _ =>
      if !is_positive_integerB (pyStr (seriesGet r sc)) then
        l :: collectBad p sc tc gc ic rest seen
      else if !is_positive_integerB (pyStr (seriesGet r gc)) then
        l :: collectBad p sc tc gc ic rest seen
      else if !is_positive_integerB (pyStr (seriesGet r ic)) then
        l :: collectBad p sc tc gc ic rest seen
      else
        match pythonIntStr (pyStrip (pyStr (seriesGet r ic))) with
        | none => l :: collectBad p sc tc gc ic rest seen
        | some idInt =>
          if idInt ∈ seen then l :: collectBad p sc tc gc ic rest seen
          else collectBad p sc tc gc ic rest (idInt :: seen)

/-- Validity of one row, written from the spec (section 4.1): the
timestamp parses, and segment, target and id pass the positive-integer
coercion rule. -/
def specRowValid (p : Value → Option Nat) (sc tc gc ic : String) (r : Row) : Bool :=
  (p (seriesGet r tc)).isSome
    && is_positive_integerB (pyStr (seriesGet r sc))
    && is_positive_integerB (pyStr (seriesGet r gc))
    && is_positive_integerB (pyStr (seriesGet r ic))

/-- The coerced row id of a row whose id field passed the coercion rule. -/
def specRowId (ic : String) (r : Row) : Int :=
  (pythonIntStr (pyStrip (pyStr (seriesGet r ic)))).getD 0

/-- Validation written from the spec's words (section 4.1, single pass,
order-preserving): keep a row iff all four rules hold and its coerced id
has not been accepted earlier in the pass; first occurrence wins. -/
def validateSpec (p : Value → Option Nat) (sc tc gc ic : String) :
    List Int → List (Nat × Row) → List (Nat × Row)
  | _, [] => []
  | seen, (l, r) :: rest =>
    if specRowValid p sc tc gc ic r = true ∧ specRowId ic r ∉ seen then
      (l, r) :: validateSpec p sc tc gc ic (specRowId ic r :: seen) rest
    else validateSpec p sc tc gc ic seen rest

/-- Column access `df[c]` as a list of values: raises `KeyError` when the column is
absent from the schema. -/
def colVals (df : DataFrame) (c : String) : Except PyError (List Value) :=
  if c ∈ df.cols then .ok (df.rows.map (fun q => seriesGet q.2 c))
  else .error .keyError

/-- Cell access `df[c][lbl]`: label-based lookup in column `c`, raising `KeyError`
when the column or the label is absent.  (In the source this access
only feeds the progress `print`.) -/
def locValue (df : DataFrame) (c : String) (lbl : Nat) : Except PyError Value :=
  if c ∈ df.cols then
    match df.rows.find? (fun q => q.1 == lbl) with
    | some q => .ok (seriesGet q.2 c)
    | none => .error .keyError
  else .error .keyError

/-- Model of `df.drop(index=lbl)` for a single label. -/
def dropRow (df : DataFrame) (lbl : Nat) : Except PyError DataFrame :=
  if lbl ∈ df.rows.map Prod.fst then
    .ok ⟨df.cols, df.rows.filter (fun q => decide (q.1 ≠ lbl))⟩
  else .error .keyError

/-- The loop of `parse_timestamps` (clean_traffic.py lines 56-66): walk
the snapshot of the timestamp column taken at loop entry, keeping a
positional counter `row`; when a value fails the permissive parse, read
`df[tc][row]` (for the progress message) and drop label `row` from the
current frame. -/
def ptLoop (p : Value → Option Nat) (tc : String) :
    List Value → Nat → DataFrame → Except PyError DataFrame
  | [], _, df => .ok df
  | v :: rest, row, df =>
    match p v with
    | some _ => ptLoop p tc rest (row + 1) df
    | none => do
      let _ ← locValue df tc row
      let df2 ← dropRow df row
      ptLoop p tc rest (row + 1) df2

/-- Strict `pd.to_datetime` over a list of column values (clean_traffic.py
line 70, no `errors="coerce"`): every value must parse, else
`ValueError`. -/
def to_datetime_list (p : Value → Option Nat) :
    List Value → Except PyError (List Value)
  | [] => .ok []
  | v :: rest =>
    match p v with
    | none => .error .valueError
    | some t => (to_datetime_list p rest).map (fun vs => .vTime t :: vs)

/-- Set (or append) the cell of column `c` in a row. -/
def setCell (r : Row) (c : String) (v : Value) : Row :=
  if c ∈ r.map Prod.fst then
    r.map (fun q => if q.1 = c then (q.1, v) else q)
  else r ++ [(c, v)]

/-- Column assignment `df[c] = vals` (pairs the values with the rows in
order). -/
def assignCol (df : DataFrame) (c : String) (vals : List Value) : DataFrame :=
  ⟨if c ∈ df.cols then df.cols else df.cols ++ [c],
   (df.rows.zip vals).map (fun q => (q.1.1, setCell q.1.2 c q.2))⟩

/-- Function `parse_timestamps` (clean_traffic.py lines 39-71): snapshot the
timestamp column, run the dropping loop, then convert the whole
surviving column with strict `pd.to_datetime` and assign it back. -/
def parse_timestamps (p : Value → Option Nat) (df : DataFrame)
    (tc : String) : Except PyError DataFrame := do
  let snapshot ← colVals df tc
  let df2 ← ptLoop p tc snapshot 0 df
  let vals ← colVals df2 tc
  let parsed ← to_datetime_list p vals
  .ok (assignCol df2 tc parsed)

/-- Model of `df.drop(columns=[c])`: raises `KeyError` when the column is absent,
otherwise removes the column from the schema and from every row. -/
def dropColumn (df : DataFrame) (c : String) : Except PyError DataFrame :=
  if c ∈ df.cols then
    .ok ⟨df.cols.filter (fun c2 => decide (c2 ≠ c)),
         df.rows.map (fun q => (q.1, q.2.filter (fun e => decide (e.1 ≠ c))))⟩
  else .error .keyError

/-- The column loop of `select_relevant_columns` (clean_traffic.py lines
93-97): walk the snapshot of the column list taken at loop entry and
drop every column whose name is none of the three requested names. -/
def selLoop (sc tc gc : String) :
    List String → DataFrame → Except PyError DataFrame
  | [], df => .ok df
  | c :: rest, df =>
    if c = sc ∨ c = tc ∨ c = gc then selLoop sc tc gc rest df
    else do
      let df2 ← dropColumn df c
      selLoop sc tc gc rest df2

/-- Function `select_relevant_columns` (clean_traffic.py lines 75-98). -/
def select_relevant_columns (df : DataFrame) (sc tc gc : String) :
    Except PyError DataFrame :=
  selLoop sc tc gc df.cols df

/-- Function `sort_time_series` (clean_traffic.py lines 124-140): the body is
`pass`, so the function returns `None` for every input instead of a
DataFrame. -/
def sort_time_series (df : DataFrame) (sc tc : String) : Option DataFrame :=
  none

/-- A file system for the pipeline entry point: paths mapped to stored
tables. -/
abbrev FileSystem := List (String × DataFrame)

/-- Function `run_cleaning_pipeline` (clean_traffic.py lines 218-236): the body is
`pass`, so no stage runs and the file system is left untouched. -/
def run_cleaning_pipeline (raw_data_path output_path : String)
    (fs : FileSystem) : FileSystem :=
  fs

/-- Formalisation of the parse named by claim C3, following the spec's
words: after trimming whitespace, an optional sign followed by one or
more base-10 digits (no fractional part, no scientific notation). -/
def base10Digits (cs : List Char) : Bool :=
  !cs.isEmpty && cs.all isAsciiDigit

/-- Numeric value of a digit list. -/
def digitsToNat (cs : List Char) : Nat :=
  cs.foldl (fun a c => 10 * a + digitVal c) 0

/-- The claim's base-10 integer parse (spec section 4.1, read literally). -/
def base10IntStr (s : String) : Option Int :=
  let cs := asciiStrip s.toList
  if cs.head? = some '+' then
    if base10Digits cs.tail then some ((digitsToNat cs.tail : Nat) : Int) else none
  else if cs.head? = some '-' then
    if base10Digits cs.tail then some (-((digitsToNat cs.tail : Nat) : Int)) else none
  else if base10Digits cs then some ((digitsToNat cs : Nat) : Int) else none

/-- The predicate claim C3 asserts `is_positive_integer` to equal: the
trimmed string parses as a plain base-10 integer strictly greater than
zero. -/
def is_positive_integer_claim (s : String) : Bool :=
  match base10IntStr s with
  | some n => decide (0 < n)
  | none => false

/-- Digit run with Python's underscore grouping, stated declaratively:
nonempty, only digits and underscores, first and last characters are
digits, and no two adjacent underscores. -/
def groupedDigits (cs : List Char) : Bool :=
  !cs.isEmpty
    && cs.all (fun c => isAsciiDigit c || c == '_')
    && (match cs.head? with | some c => isAsciiDigit c | none => true)
    && (match cs.getLast? with | some c => isAsciiDigit c | none => true)
    && ((cs.zip cs.tail).all (fun q => !(q.1 == '_' && q.2 == '_')))

/-- The amended base-10 parse: as `base10IntStr`, but also accepting
Python's underscore digit grouping between digits. -/
def groupedBase10IntStr (s : String) : Option Int :=
  let cs := asciiStrip s.toList
  if cs.head? = some '+' then
    if groupedDigits cs.tail then
      some ((digitsToNat (cs.tail.filter isAsciiDigit) : Nat) : Int)
    else none
  else if cs.head? = some '-' then
    if groupedDigits cs.tail then
      some (-((digitsToNat (cs.tail.filter isAsciiDigit) : Nat) : Int))
    else none
  else
    if groupedDigits cs then
      some ((digitsToNat (cs.filter isAsciiDigit) : Nat) : Int)
    else none

/-- The amended positive-integer predicate of claim C3. -/
def is_positive_integer_amended (s : String) : Bool :=
  match groupedBase10IntStr s with
  | some n => decide (0 < n)
  | none => false

/-- Continuation condition characterising the strings `pyDigits`
accepts: only digits and underscores, no two adjacent underscores, and
the last character (when any) is a digit. -/
def pyContOk (cs : List Char) : Bool :=
  cs.all (fun c => isAsciiDigit c || c == '_')
    && ((cs.zip cs.tail).all (fun q => !(q.1 == '_' && q.2 == '_')))
    && (match cs.getLast? with | some c => isAsciiDigit c | none => true)

/-- Digit accumulation starting from a seed value. -/
def digitsFoldFrom (acc : Nat) (cs : List Char) : Nat :=
  cs.foldl (fun a c => 10 * a + digitVal c) acc

/-- A concrete permissive timestamp parser used to instantiate the
parser parameter in witnesses: it knows the three timestamps of the
spec's end-to-end scenario, accepts already-parsed timestamps, and
rejects everything else (in particular the missing marker, as
`pd.to_datetime(None, errors="coerce")` yields NaT). -/
def sampleTimestampParser : Value → Option Nat
  | .vTime t => some t
  | .vStr s =>
    if s = "2021-01-01 00:00:00" then some 0
    else if s = "2021-01-01 01:00:00" then some 3600
    else if s = "2021-01-01 02:00:00" then some 7200
    else none
  | _ => none

/-- The spec's end-to-end scenario table (spec section 8): row 2 has an
unparseable timestamp, row 3 a negative segment, row 4 a duplicate id. -/
def scenarioRowList : List Row :=
  [[("Junction", .vStr "3"), ("DateTime", .vStr "2021-01-01 00:00:00"),
    ("Vehicles", .vStr "12"), ("ID", .vStr "1")],
   [("Junction", .vStr "3"), ("DateTime", .vStr "not-a-date"),
    ("Vehicles", .vStr "9"), ("ID", .vStr "2")],
   [("Junction", .vStr "-1"), ("DateTime", .vStr "2021-01-01 01:00:00"),
    ("Vehicles", .vStr "5"), ("ID", .vStr "3")],
   [("Junction", .vStr "3"), ("DateTime", .vStr "2021-01-01 02:00:00"),
    ("Vehicles", .vStr "8"), ("ID", .vStr "1")]]

/-- The scenario table as a DataFrame with the default index. -/
def scenarioDf : DataFrame :=
  ⟨["Junction", "DateTime", "Vehicles", "ID"], scenarioRowList.enum⟩

/-- A table whose schema lacks the `ID` column, with one otherwise fully
valid row. -/
def dfNoId : DataFrame :=
  ⟨["Junction", "DateTime", "Vehicles"],
   [(0, [("Junction", .vStr "1"), ("DateTime", .vStr "2021-01-01 00:00:00"),
         ("Vehicles", .vStr "2")])]⟩

/-- The repository's alternative-schema table
(test_schema_different_column_names.csv): columns `timestamp`,
`segment_id`, `volume`, `row_id`. -/
def dfAltSchema : DataFrame :=
  ⟨["timestamp", "segment_id", "volume", "row_id"],
   [(0, [("timestamp", .vStr "2021-01-01 00:00:00"), ("segment_id", .vStr "1"),
         ("volume", .vStr "5"), ("row_id", .vStr "1")])]⟩

/-- Rows for the `parse_timestamps` witness: the middle timestamp is
unparseable. -/
def timesRowList : List Row :=
  [[("Junction", .vStr "1"), ("DateTime", .vStr "2021-01-01 00:00:00"),
    ("Vehicles", .vStr "4"), ("ID", .vStr "1")],
   [("Junction", .vStr "1"), ("DateTime", .vStr "not-a-date"),
    ("Vehicles", .vStr "6"), ("ID", .vStr "2")],
   [("Junction", .vStr "2"), ("DateTime", .vStr "2021-01-01 01:00:00"),
    ("Vehicles", .vStr "7"), ("ID", .vStr "3")]]

/-- The scenario table after validation: only the first row survives. -/
def scenarioCleanDf : DataFrame :=
  ⟨["Junction", "DateTime", "Vehicles", "ID"],
   [(0, [("Junction", .vStr "3"), ("DateTime", .vStr "2021-01-01 00:00:00"),
         ("Vehicles", .vStr "12"), ("ID", .vStr "1")])]⟩

/-- Decidable equality for `Except`, used to evaluate concrete runs of
the embedded functions in witnesses. -/
instance exceptDecEq {ε α : Type} [DecidableEq ε] [DecidableEq α] :
    DecidableEq (Except ε α) := fun x y =>
  match x, y with
  | .ok a, .ok b =>
    if h : a = b then isTrue (by rw [h])
    else isFalse (by intro hc; cases hc; exact h rfl)
  | .error e, .error f =>
    if h : e = f then isTrue (by rw [h])
    else isFalse (by intro hc; cases hc; exact h rfl)
  | .ok _, .error _ => isFalse (by intro hc; cases hc)
  | .error _, .ok _ => isFalse (by intro hc; cases hc)

/-! ### Helper lemmas: Python integer parsing -/

theorem isAsciiDigit_underscore : isAsciiDigit '_' = false := by decide

theorem digit_beq_underscore {c : Char} (h : isAsciiDigit c = true) :
    (c == '_') = false := by
  cases hb : c == '_' with
  | false => rfl
  | true =>
    have hc : c = '_' := eq_of_beq hb
    rw [hc] at h
    exact absurd h (by decide)

theorem pyContOk_nil : pyContOk [] = true := rfl

theorem pyContOk_cons_digit {c : Char} (rest : List Char)
    (h : isAsciiDigit c = true) : pyContOk (c :: rest) = pyContOk rest := by
  have hb := digit_beq_underscore h
  cases rest with
  | nil => simp [pyContOk, h]
  | cons d t =>
    simp [pyContOk, h, hb, List.getLast?_cons_cons, List.zip_cons_cons,
      Bool.and_assoc]

theorem pyContOk_underscore_cons {c : Char} (rest : List Char)
    (h : isAsciiDigit c = true) :
    pyContOk ('_' :: c :: rest) = pyContOk (c :: rest) := by
  have hb := digit_beq_underscore h
  simp [pyContOk, h, hb, List.getLast?_cons_cons, List.zip_cons_cons,
    Bool.and_assoc]

theorem digitsFoldFrom_cons (acc : Nat) (c : Char) (cs : List Char) :
    digitsFoldFrom acc (c :: cs) = digitsFoldFrom (10 * acc + digitVal c) cs := rfl

theorem pyDigits_eq (cs : List Char) (acc : Nat) :
    pyDigits cs acc =
      if pyContOk cs then some (digitsFoldFrom acc (cs.filter isAsciiDigit)) else none := by
  induction cs, acc using pyDigits.induct with
  | case1 acc => simp [pyDigits, pyContOk, digitsFoldFrom]
  | case2 acc c rest2 h ih =>
    rw [show pyDigits ('_' :: c :: rest2) acc = pyDigits rest2 (10 * acc + digitVal c) by
      simp [pyDigits, h]]
    rw [pyContOk_underscore_cons rest2 h, pyContOk_cons_digit rest2 h]
    rw [show List.filter isAsciiDigit ('_' :: c :: rest2) = c :: List.filter isAsciiDigit rest2 by
      simp [List.filter_cons, h, isAsciiDigit_underscore]]
    rw [ih]
    simp [digitsFoldFrom_cons]
  | case3 acc c rest2 h =>
    have h' : isAsciiDigit c = false := by
      revert h; cases isAsciiDigit c <;> simp
    rw [show pyDigits ('_' :: c :: rest2) acc = none by simp [pyDigits, h']]
    by_cases hcu : c = '_'
    · subst hcu
      rw [show pyContOk ('_' :: '_' :: rest2) = false by
        simp [pyContOk, List.zip_cons_cons]]
      simp
    · have hb : (c == '_') = false := beq_eq_false_iff_ne.mpr hcu
      rw [show pyContOk ('_' :: c :: rest2) = false by
        simp [pyContOk, h', hb]]
      simp
  | case4 acc =>
    rw [show pyDigits ['_'] acc = none from rfl]
    rw [show pyContOk ['_'] = false by decide]
    simp
  | case5 c rest acc hne h ih =>
    have hb : (c == '_') = false := beq_eq_false_iff_ne.mpr (fun hc => hne hc)
    rw [show pyDigits (c :: rest) acc = pyDigits rest (10 * acc + digitVal c) by
      simp [pyDigits, h, hb]]
    rw [pyContOk_cons_digit rest h]
    rw [show List.filter isAsciiDigit (c :: rest) = c :: List.filter isAsciiDigit rest by
      simp [List.filter_cons, h]]
    rw [ih]
    simp [digitsFoldFrom_cons]
  | case6 c rest acc hne h =>
    have h' : isAsciiDigit c = false := by
      revert h; cases isAsciiDigit c <;> simp
    have hb : (c == '_') = false := beq_eq_false_iff_ne.mpr (fun hc => hne hc)
    rw [show pyDigits (c :: rest) acc = none by simp [pyDigits, h', hb]]
    rw [show pyContOk (c :: rest) = false by simp [pyContOk, h', hb]]
    simp

theorem groupedDigits_cons_digit {c : Char} (rest : List Char)
    (h : isAsciiDigit c = true) : groupedDigits (c :: rest) = pyContOk rest := by
  have hb := digit_beq_underscore h
  cases rest with
  | nil => simp [groupedDigits, pyContOk, h]
  | cons d t =>
    simp [groupedDigits, pyContOk, h, hb, List.getLast?_cons_cons,
      List.zip_cons_cons, Bool.and_assoc, Bool.and_comm, Bool.and_left_comm]

theorem digitsToNat_cons_digit (c : Char) (cs : List Char) :
    digitsToNat (c :: cs) = digitsFoldFrom (digitVal c) cs := by
  simp [digitsToNat, digitsFoldFrom]

theorem pyUnsigned_eq (cs : List Char) :
    pyUnsigned cs =
      if groupedDigits cs then some (digitsToNat (cs.filter isAsciiDigit)) else none := by
  cases cs with
  | nil => simp [pyUnsigned, groupedDigits]
  | cons c rest =>
    by_cases h : isAsciiDigit c = true
    · rw [show pyUnsigned (c :: rest) = pyDigits rest (digitVal c) by simp [pyUnsigned, h]]
      rw [pyDigits_eq, groupedDigits_cons_digit rest h]
      rw [show List.filter isAsciiDigit (c :: rest) = c :: List.filter isAsciiDigit rest by
        simp [List.filter_cons, h]]
      rw [digitsToNat_cons_digit]
    · have h' : isAsciiDigit c = false := by
        revert h; cases isAsciiDigit c <;> simp
      rw [show pyUnsigned (c :: rest) = none by simp [pyUnsigned, h']]
      rw [show groupedDigits (c :: rest) = false by simp [groupedDigits, h']]
      simp

theorem pyIntAux_eq_grouped (cs : List Char) :
    pyIntAux cs =
      (if cs.head? = some '+' then
        if groupedDigits cs.tail then
          some ((digitsToNat (cs.tail.filter isAsciiDigit) : Nat) : Int)
        else none
      else if cs.head? = some '-' then
        if groupedDigits cs.tail then
          some (-((digitsToNat (cs.tail.filter isAsciiDigit) : Nat) : Int))
        else none
      else
        if groupedDigits cs then
          some ((digitsToNat (cs.filter isAsciiDigit) : Nat) : Int)
        else none) := by
  unfold pyIntAux
  by_cases h1 : cs.head? = some '+'
  · cases hg : groupedDigits cs.tail <;> simp [pyUnsigned_eq, hg, h1]
  · by_cases h2 : cs.head? = some '-'
    · cases hg : groupedDigits cs.tail <;> simp [pyUnsigned_eq, hg, h1, h2]
    · cases hg : groupedDigits cs <;> simp [pyUnsigned_eq, hg, h1, h2]

theorem pythonIntStr_eq_grouped (s : String) :
    pythonIntStr s = groupedBase10IntStr s := by
  unfold pythonIntStr groupedBase10IntStr
  exact pyIntAux_eq_grouped (asciiStrip s.toList)

theorem ipi_ok (s : String) :
    is_positive_integer s = .ok (is_positive_integerB s) := by
  cases h : pythonIntStr s <;>
    simp [is_positive_integer, int_try, is_positive_integerB, h]

theorem ipiB_eq_amended (s : String) :
    is_positive_integerB s = is_positive_integer_amended s := by
  unfold is_positive_integerB is_positive_integer_amended
  rw [pythonIntStr_eq_grouped]

/-! ### Helper lemmas: whitespace stripping is idempotent -/

theorem dropWhile_head_false {α : Type} (p : α → Bool) (l : List α) :
    ∀ c, (l.dropWhile p).head? = some c → p c = false := by
  induction l with
  | nil => intro c h; simp [List.dropWhile] at h
  | cons a t ih =>
    intro c h
    by_cases hp : p a = true
    · rw [List.dropWhile_cons_of_pos hp] at h
      exact ih c h
    · have hp' : p a = false := by revert hp; cases p a <;> simp
      rw [List.dropWhile_cons_of_neg (by simp [hp'])] at h
      simp at h
      rw [← h]
      exact hp'

theorem dropWhile_eq_self_of_head {α : Type} (p : α → Bool) (l : List α)
    (h : ∀ c, l.head? = some c → p c = false) : l.dropWhile p = l := by
  cases l with
  | nil => rfl
  | cons a t =>
    have := h a rfl
    exact List.dropWhile_cons_of_neg (by simp [this])

theorem stripBack_starts (l : List Char) : stripBack l <+: l := by
  unfold stripBack
  have h1 : l.reverse.dropWhile asciiWs <:+ l.reverse := List.dropWhile_suffix _
  obtain ⟨t, ht⟩ := h1
  refine ⟨t.reverse, ?_⟩
  have h2 := congrArg List.reverse ht
  rw [List.reverse_append, List.reverse_reverse] at h2
  exact h2

theorem head?_of_starts {α : Type} {l1 l2 : List α} (h : l1 <+: l2)
    {c : α} (hc : l1.head? = some c) : l2.head? = some c := by
  obtain ⟨t, ht⟩ := h
  rw [← ht, List.head?_append, hc]
  rfl

theorem stripBack_stripBack (l : List Char) :
    stripBack (stripBack l) = stripBack l := by
  unfold stripBack
  rw [List.reverse_reverse, List.dropWhile_idempotent]

theorem asciiStrip_idem (cs : List Char) :
    asciiStrip (asciiStrip cs) = asciiStrip cs := by
  unfold asciiStrip
  have hfront : stripFront (stripBack (stripFront cs)) = stripBack (stripFront cs) := by
    apply dropWhile_eq_self_of_head
    intro c hc
    have hc2 : (stripFront cs).head? = some c :=
      head?_of_starts (stripBack_starts (stripFront cs)) hc
    exact dropWhile_head_false asciiWs cs c hc2
  rw [hfront, stripBack_stripBack]

theorem pythonIntStr_pyStrip (s : String) :
    pythonIntStr (pyStrip s) = pythonIntStr s := by
  unfold pythonIntStr pyStrip
  rw [show (String.mk (asciiStrip s.toList)).toList = asciiStrip s.toList from rfl]
  rw [asciiStrip_idem]

/-! ### Helper lemmas: remove_invalid_rows -/

theorem ipiB_true_iff (s : String) :
    is_positive_integerB s = true ↔ ∃ n, pythonIntStr s = some n ∧ 0 < n := by
  unfold is_positive_integerB
  cases h : pythonIntStr s <;> simp [h]

theorem rivLoop_ok (p : Value → Option Nat) (sc tc gc ic : String) :
    ∀ (rows : List (Nat × Row)) (seen : List Int),
      rivLoop p sc tc gc ic rows seen =
        .ok (collectBad p sc tc gc ic rows seen) := by
  intro rows
  induction rows with
  | nil => intro seen; rfl
  | cons hd rest ih =>
    intro seen
    obtain ⟨l, r⟩ := hd
    cases hp : p (seriesGet r tc) with
    | none => simp [rivLoop, collectBad, hp, ih, Except.map]
    | some t0 =>
      cases hsc : is_positive_integerB (pyStr (seriesGet r sc)) with
      | false => simp [rivLoop, collectBad, hp, ipi_ok, hsc, ih, Except.map, Bind.bind, Except.bind]
      | true =>
        cases hgc : is_positive_integerB (pyStr (seriesGet r gc)) with
        | false => simp [rivLoop, collectBad, hp, ipi_ok, hsc, hgc, ih, Except.map, Bind.bind, Except.bind]
        | true =>
          cases hic : is_positive_integerB (pyStr (seriesGet r ic)) with
          | false => simp [rivLoop, collectBad, hp, ipi_ok, hsc, hgc, hic, ih, Except.map, Bind.bind, Except.bind]
          | true =>
            obtain ⟨n, hn, hpos⟩ := (ipiB_true_iff _).mp hic
            have hits : pythonIntStr (pyStrip (pyStr (seriesGet r ic))) = some n := by
              rw [pythonIntStr_pyStrip]; exact hn
            by_cases hmem : n ∈ seen
            · simp [rivLoop, collectBad, hp, ipi_ok, hsc, hgc, hic, hits, hmem, ih, Except.map, Bind.bind, Except.bind]
            · simp [rivLoop, collectBad, hp, ipi_ok, hsc, hgc, hic, hits, hmem, ih, Except.map, Bind.bind, Except.bind]

theorem collectBad_cons (p : Value → Option Nat) (sc tc gc ic : String)
    (l : Nat) (r : Row) (rest : List (Nat × Row)) (seen : List Int) :
    collectBad p sc tc gc ic ((l, r) :: rest) seen =
      if specRowValid p sc tc gc ic r = true ∧ specRowId ic r ∉ seen then
        collectBad p sc tc gc ic rest (specRowId ic r :: seen)
      else l :: collectBad p sc tc gc ic rest seen := by
  cases hp : p (seriesGet r tc) with
  | none => simp [collectBad, specRowValid, hp]
  | some t0 =>
    cases hsc : is_positive_integerB (pyStr (seriesGet r sc)) with
    | false => simp [collectBad, specRowValid, hp, hsc]
    | true =>
      cases hgc : is_positive_integerB (pyStr (seriesGet r gc)) with
      | false => simp [collectBad, specRowValid, hp, hsc, hgc]
      | true =>
        cases hic : is_positive_integerB (pyStr (seriesGet r ic)) with
        | false => simp [collectBad, specRowValid, hp, hsc, hgc, hic]
        | true =>
          obtain ⟨n, hn, hpos⟩ := (ipiB_true_iff _).mp hic
          have hits : pythonIntStr (pyStrip (pyStr (seriesGet r ic))) = some n := by
            rw [pythonIntStr_pyStrip]; exact hn
          have hid : specRowId ic r = n := by
            unfold specRowId
            rw [hits]
            rfl
          by_cases hmem : n ∈ seen
          · simp [collectBad, specRowValid, hp, hsc, hgc, hic, hits, hid, hmem]
          · simp [collectBad, specRowValid, hp, hsc, hgc, hic, hits, hid, hmem]

theorem collectBad_subset (p : Value → Option Nat) (sc tc gc ic : String) :
    ∀ (rows : List (Nat × Row)) (seen : List Int),
      collectBad p sc tc gc ic rows seen ⊆ rows.map Prod.fst := by
  intro rows
  induction rows with
  | nil => intro seen; simp [collectBad]
  | cons hd rest ih =>
    intro seen
    obtain ⟨l, r⟩ := hd
    rw [collectBad_cons]
    by_cases hkeep : specRowValid p sc tc gc ic r = true ∧ specRowId ic r ∉ seen
    · rw [if_pos hkeep]
      intro x hx
      exact List.mem_cons_of_mem l (ih _ hx)
    · rw [if_neg hkeep]
      intro x hx
      rcases List.mem_cons.mp hx with h | h
      · simp [h]
      · exact List.mem_cons_of_mem l (ih _ h)

theorem filter_collectBad (p : Value → Option Nat) (sc tc gc ic : String) :
    ∀ (rows : List (Nat × Row)) (seen : List Int),
      (rows.map Prod.fst).Nodup →
      rows.filter (fun q => decide (q.1 ∉ collectBad p sc tc gc ic rows seen)) =
        validateSpec p sc tc gc ic seen rows := by
  intro rows
  induction rows with
  | nil => intro seen _; rfl
  | cons hd rest ih =>
    intro seen hnd
    obtain ⟨l, r⟩ := hd
    have hl : l ∉ rest.map Prod.fst := by
      simp only [List.map_cons, List.nodup_cons] at hnd
      exact hnd.1
    have hrest : (rest.map Prod.fst).Nodup := by
      simp only [List.map_cons, List.nodup_cons] at hnd
      exact hnd.2
    rw [collectBad_cons]
    by_cases hkeep : specRowValid p sc tc gc ic r = true ∧ specRowId ic r ∉ seen
    · rw [if_pos hkeep]
      have hlnot : l ∉ collectBad p sc tc gc ic rest (specRowId ic r :: seen) :=
        fun hmem => hl (collectBad_subset p sc tc gc ic rest _ hmem)
      rw [List.filter_cons]
      rw [if_pos (by simpa using hlnot)]
      rw [ih _ hrest]
      rw [validateSpec]
      rw [if_pos hkeep]
    · rw [if_neg hkeep]
      rw [List.filter_cons]
      rw [if_neg (by simp)]
      rw [validateSpec, if_neg hkeep]
      rw [← ih _ hrest]
      apply List.filter_congr
      intro q hq
      have hql : q.1 ≠ l := by
        intro he
        exact hl (he ▸ List.mem_map_of_mem Prod.fst hq)
      simp [List.mem_cons, hql]

theorem validateSpec_length (p : Value → Option Nat) (sc tc gc ic : String) :
    ∀ (rows : List (Nat × Row)) (seen : List Int),
      (validateSpec p sc tc gc ic seen rows).length ≤ rows.length := by
  intro rows
  induction rows with
  | nil => intro seen; simp [validateSpec]
  | cons hd rest ih =>
    intro seen
    obtain ⟨l, r⟩ := hd
    rw [validateSpec]
    by_cases hkeep : specRowValid p sc tc gc ic r = true ∧ specRowId ic r ∉ seen
    · rw [if_pos hkeep]
      simpa using ih (specRowId ic r :: seen)
    · rw [if_neg hkeep]
      exact le_trans (ih seen) (Nat.le_succ _)

theorem validateSpec_sublist (p : Value → Option Nat) (sc tc gc ic : String) :
    ∀ (rows : List (Nat × Row)) (seen : List Int),
      (validateSpec p sc tc gc ic seen rows).Sublist rows := by
  intro rows
  induction rows with
  | nil => intro seen; simp [validateSpec]
  | cons hd rest ih =>
    intro seen
    obtain ⟨l, r⟩ := hd
    rw [validateSpec]
    by_cases hkeep : specRowValid p sc tc gc ic r = true ∧ specRowId ic r ∉ seen
    · rw [if_pos hkeep]
      exact List.Sublist.cons₂ _ (ih _)
    · rw [if_neg hkeep]
      exact List.Sublist.cons _ (ih _)

theorem validateSpec_idem (p : Value → Option Nat) (sc tc gc ic : String) :
    ∀ (rows : List (Nat × Row)) (seen : List Int),
      validateSpec p sc tc gc ic seen (validateSpec p sc tc gc ic seen rows) =
        validateSpec p sc tc gc ic seen rows := by
  intro rows
  induction rows with
  | nil => intro seen; rfl
  | cons hd rest ih =>
    intro seen
    obtain ⟨l, r⟩ := hd
    rw [validateSpec]
    by_cases hkeep : specRowValid p sc tc gc ic r = true ∧ specRowId ic r ∉ seen
    · rw [if_pos hkeep]
      rw [validateSpec, if_pos hkeep, ih]
    · rw [if_neg hkeep]
      exact ih seen

theorem remove_invalid_rows_ok (p : Value → Option Nat) (df : DataFrame)
    (sc tc gc ic : String) :
    remove_invalid_rows p df sc tc gc ic =
      .ok ⟨df.cols,
        df.rows.filter
          (fun q => decide (q.1 ∉ collectBad p sc tc gc ic df.rows []))⟩ := by
  unfold remove_invalid_rows
  rw [rivLoop_ok]
  show dropRows df (collectBad p sc tc gc ic df.rows []) = _
  unfold dropRows
  rw [if_pos]
  rw [List.all_eq_true]
  intro l hl
  exact decide_eq_true (collectBad_subset p sc tc gc ic df.rows [] hl)

theorem ipiB_None : is_positive_integerB (pyStr Value.vNone) = false := by decide

theorem specRowValid_false_of_missing (p : Value → Option Nat)
    (sc tc gc ic : String) (r : Row) (hp : p .vNone = none)
    (h : r.lookup sc = none ∨ r.lookup tc = none ∨ r.lookup gc = none ∨
      r.lookup ic = none) :
    specRowValid p sc tc gc ic r = false := by
  unfold specRowValid
  rcases h with h | h | h | h
  · rw [show seriesGet r sc = .vNone by simp [seriesGet, h]]
    simp [ipiB_None]
  · rw [show seriesGet r tc = .vNone by simp [seriesGet, h], hp]
    simp
  · rw [show seriesGet r gc = .vNone by simp [seriesGet, h]]
    simp [ipiB_None]
  · rw [show seriesGet r ic = .vNone by simp [seriesGet, h]]
    simp [ipiB_None]

theorem collectBad_of_all_invalid (p : Value → Option Nat) (sc tc gc ic : String) :
    ∀ (rows : List (Nat × Row)) (seen : List Int),
      (∀ q ∈ rows, specRowValid p sc tc gc ic q.2 = false) →
      collectBad p sc tc gc ic rows seen = rows.map Prod.fst := by
  intro rows
  induction rows with
  | nil => intro seen _; rfl
  | cons hd rest ih =>
    intro seen h
    obtain ⟨l, r⟩ := hd
    rw [collectBad_cons]
    rw [if_neg]
    · rw [List.map_cons]
      congr 1
      exact ih seen (fun q hq => h q (List.mem_cons_of_mem _ hq))
    · intro hk
      have := h (l, r) (List.mem_cons_self _ _)
      rw [this] at hk
      exact Bool.false_ne_true hk.1

/-! ### Claim theorems: the validator -/

/-- Claim C1: for every table with distinct index labels (as produced by
`read_csv`), `remove_invalid_rows` returns exactly the rows that satisfy
the four validity rules with the first-occurrence-wins duplicate-id
policy, in their original relative order (it equals the validator
written from the spec's words), and the output row count is at most the
input row count. -/
theorem C1_remove_invalid_rows_correct (p : Value → Option Nat)
    (df : DataFrame) (sc tc gc ic : String)
    (h : (df.rows.map Prod.fst).Nodup) :
    remove_invalid_rows p df sc tc gc ic =
        .ok ⟨df.cols, validateSpec p sc tc gc ic [] df.rows⟩ ∧
      (validateSpec p sc tc gc ic [] df.rows).length ≤ df.rows.length := by
  constructor
  · rw [remove_invalid_rows_ok, filter_collectBad p sc tc gc ic df.rows [] h]
  · exact validateSpec_length p sc tc gc ic df.rows []

/-- Witness for C1 at the spec's end-to-end scenario: of the four rows,
only the first survives (row 2 fails the timestamp parse, row 3 the
segment check, row 4 is a duplicate id). -/
theorem C1_witness :
    (scenarioDf.rows.map Prod.fst).Nodup ∧
      (remove_invalid_rows sampleTimestampParser scenarioDf
          "Junction" "DateTime" "Vehicles" "ID" =
          .ok ⟨scenarioDf.cols,
            validateSpec sampleTimestampParser "Junction" "DateTime" "Vehicles" "ID"
              [] scenarioDf.rows⟩ ∧
        (validateSpec sampleTimestampParser "Junction" "DateTime" "Vehicles" "ID"
            [] scenarioDf.rows).length ≤ scenarioDf.rows.length) :=
  ⟨by decide,
   C1_remove_invalid_rows_correct sampleTimestampParser scenarioDf
     "Junction" "DateTime" "Vehicles" "ID" (by decide)⟩

/-- Claim C2 is refuted: on a table whose schema lacks the `ID` column
(with one otherwise fully valid row), `remove_invalid_rows` does not
fail with a schema error; it returns a table (with every row dropped). -/
theorem C2_counterexample :
    remove_invalid_rows sampleTimestampParser dfNoId
        "Junction" "DateTime" "Vehicles" "ID" =
      .ok ⟨["Junction", "DateTime", "Vehicles"], []⟩ := by decide

/-- Claim C2 amended: when one of the four requested columns is absent
from every row, `remove_invalid_rows` does not raise; each lookup of the
missing column yields the missing marker, every row therefore fails
validation, and the result is the table with all rows removed and the
schema unchanged.  (`hp` records that the permissive parser sends the
missing marker to NaT, as `pd.to_datetime` does.) -/
theorem C2_amended_missing_column_drops_all (p : Value → Option Nat)
    (df : DataFrame) (sc tc gc ic : String) (hp : p .vNone = none)
    (h : (∀ q ∈ df.rows, q.2.lookup sc = none) ∨
         (∀ q ∈ df.rows, q.2.lookup tc = none) ∨
         (∀ q ∈ df.rows, q.2.lookup gc = none) ∨
         (∀ q ∈ df.rows, q.2.lookup ic = none)) :
    remove_invalid_rows p df sc tc gc ic = .ok ⟨df.cols, []⟩ := by
  rw [remove_invalid_rows_ok]
  have hall : ∀ q ∈ df.rows, specRowValid p sc tc gc ic q.2 = false := by
    intro q hq
    apply specRowValid_false_of_missing p sc tc gc ic q.2 hp
    rcases h with h | h | h | h
    · exact Or.inl (h q hq)
    · exact Or.inr (Or.inl (h q hq))
    · exact Or.inr (Or.inr (Or.inl (h q hq)))
    · exact Or.inr (Or.inr (Or.inr (h q hq)))
  rw [collectBad_of_all_invalid p sc tc gc ic df.rows [] hall]
  have : df.rows.filter (fun q => decide (q.1 ∉ df.rows.map Prod.fst)) = [] := by
    rw [List.filter_eq_nil_iff]
    intro q hq
    simp only [decide_eq_true_eq, not_not]
    exact List.mem_map_of_mem Prod.fst hq
  rw [this]

/-- Witness for the amended C2 at the concrete `ID`-less table. -/
theorem C2_witness :
    sampleTimestampParser Value.vNone = none ∧
      (∀ q ∈ dfNoId.rows, q.2.lookup "ID" = none) ∧
      remove_invalid_rows sampleTimestampParser dfNoId
          "Junction" "DateTime" "Vehicles" "ID" = .ok ⟨dfNoId.cols, []⟩ :=
  ⟨rfl, by decide,
   C2_amended_missing_column_drops_all sampleTimestampParser dfNoId
     "Junction" "DateTime" "Vehicles" "ID" rfl
     (Or.inr (Or.inr (Or.inr (by decide))))⟩

/-- Claim C8: `remove_invalid_rows` is idempotent; applying it to its
own output (same column names, distinct input labels) returns that
output unchanged. -/
theorem C8_remove_invalid_rows_idempotent (p : Value → Option Nat)
    (df out : DataFrame) (sc tc gc ic : String)
    (h1 : (df.rows.map Prod.fst).Nodup)
    (h2 : remove_invalid_rows p df sc tc gc ic = .ok out) :
    remove_invalid_rows p out sc tc gc ic = .ok out := by
  have hout : out = ⟨df.cols, validateSpec p sc tc gc ic [] df.rows⟩ := by
    rw [remove_invalid_rows_ok, filter_collectBad p sc tc gc ic df.rows [] h1] at h2
    exact (Except.ok.inj h2).symm
  subst hout
  have hsub : (validateSpec p sc tc gc ic [] df.rows).Sublist df.rows :=
    validateSpec_sublist p sc tc gc ic df.rows []
  have hnd2 : ((validateSpec p sc tc gc ic [] df.rows).map Prod.fst).Nodup :=
    List.Nodup.sublist (List.Sublist.map Prod.fst hsub) h1
  rw [remove_invalid_rows_ok]
  show Except.ok (⟨_, _⟩ : DataFrame) = _
  rw [filter_collectBad p sc tc gc ic _ [] hnd2]
  rw [validateSpec_idem]

/-- Witness for C8: validating the already-validated scenario table
removes nothing further. -/
theorem C8_witness :
    (scenarioDf.rows.map Prod.fst).Nodup ∧
      remove_invalid_rows sampleTimestampParser scenarioDf
          "Junction" "DateTime" "Vehicles" "ID" = .ok scenarioCleanDf ∧
      remove_invalid_rows sampleTimestampParser scenarioCleanDf
          "Junction" "DateTime" "Vehicles" "ID" = .ok scenarioCleanDf :=
  ⟨by decide, by decide,
   C8_remove_invalid_rows_idempotent sampleTimestampParser scenarioDf scenarioCleanDf
     "Junction" "DateTime" "Vehicles" "ID" (by decide) (by decide)⟩

/-- Claim C10: `remove_invalid_rows` never rewrites the cells of the
rows it keeps; the output schema equals the input schema and the output
rows form a sublist of the input rows, so every surviving row appears
with all its field values exactly as in the input. -/
theorem C10_remove_invalid_rows_frame (p : Value → Option Nat)
    (df : DataFrame) (sc tc gc ic : String) :
    ∃ out, remove_invalid_rows p df sc tc gc ic = .ok out ∧
      out.cols = df.cols ∧ out.rows.Sublist df.rows :=
  ⟨_, remove_invalid_rows_ok p df sc tc gc ic, rfl, List.filter_sublist _⟩

/-! ### Claim theorems: is_positive_integer -/

/-- Claim C9: `is_positive_integer` is total; for every string it
returns a boolean and never raises (the only conversion in its body is
wrapped in the `try` that catches `ValueError`). -/
theorem C9_is_positive_integer_total (s : String) :
    ∃ b, is_positive_integer s = Except.ok b :=
  ⟨is_positive_integerB s, ipi_ok s⟩

/-- Claim C3 is refuted at the string `"1_0"`: Python's `int` accepts
underscore digit grouping, so `is_positive_integer "1_0"` returns true,
while `"1_0"` does not parse as a plain base-10 integer after trimming
(the claim's right-hand side is false). -/
theorem C3_counterexample :
    is_positive_integer "1_0" = .ok true ∧
      is_positive_integer_claim "1_0" = false := by decide

/-- Claim C3 amended: `is_positive_integer s` never raises and returns
true iff the trimmed string parses as a base-10 integer strictly greater
than zero, where the parse also accepts Python's underscore digit
grouping (an underscore standing between two digits); the claim's
example values are unchanged. -/
theorem C3_amended_is_positive_integer_iff :
    (∀ s, is_positive_integer s = .ok (is_positive_integer_amended s)) ∧
      is_positive_integer "7" = .ok true ∧
      is_positive_integer " 7 " = .ok true ∧
      is_positive_integer "-1" = .ok false ∧
      is_positive_integer "3.5" = .ok false ∧
      is_positive_integer "abc" = .ok false ∧
      is_positive_integer "" = .ok false := by
  refine ⟨fun s => ?_, by decide, by decide, by decide, by decide, by decide, by decide⟩
  rw [ipi_ok, ipiB_eq_amended]

/-! ### Claim theorems: the supporting transforms -/

/-- Claim C4 (code bug): on the repository's alternative-schema table,
which lacks all three requested columns, `select_relevant_columns` does
not fail with a schema error as the spec and the repository's own test
require; it silently drops every column and returns a table with an
empty schema. -/
theorem C4_select_missing_columns_no_error :
    select_relevant_columns dfAltSchema "Junction" "DateTime" "Vehicles" =
      .ok ⟨[], [(0, [])]⟩ := by decide

/-- Claim C5 (code bug): the body of `sort_time_series` is `pass`, so it
returns `None` for every input instead of the sorted table promised by
its docstring and exercised by the repository's tests. -/
theorem C5_sort_time_series_stub (df : DataFrame) (sc tc : String) :
    sort_time_series df sc tc = none := rfl

/-- Claim C6 (code bug): the body of `run_cleaning_pipeline` is `pass`,
so it runs no stage and writes nothing: the file system is returned
untouched for every pair of paths, instead of the composition
load, select, parse, validate, sort, save. -/
theorem C6_run_cleaning_pipeline_stub (raw_data_path output_path : String)
    (fs : FileSystem) :
    run_cleaning_pipeline raw_data_path output_path fs = fs := rfl

/-! ### Helper lemmas: parse_timestamps -/

theorem enumFrom_fst_ge {α : Type} :
    ∀ (l : List α) (n : Nat) (q : Nat × α), q ∈ List.enumFrom n l → n ≤ q.1 := by
  intro l
  induction l with
  | nil => intro n q hq; simp [List.enumFrom] at hq
  | cons a t ih =>
    intro n q hq
    rcases List.mem_cons.mp hq with h | h
    · simp [h]
    · exact le_trans (Nat.le_succ n) (ih (n + 1) q h)

theorem ptLoop_spec (p : Value → Option Nat) (tc : String) (cols : List String)
    (hc : tc ∈ cols) :
    ∀ (pending : List Row) (k : Nat) (acc : List (Nat × Row)),
      (∀ l ∈ acc.map Prod.fst, l < k) →
      ptLoop p tc (pending.map (fun r => seriesGet r tc)) k
          ⟨cols, acc ++ List.enumFrom k pending⟩ =
        .ok ⟨cols, acc ++ (List.enumFrom k pending).filter
            (fun q => (p (seriesGet q.2 tc)).isSome)⟩ := by
  intro pending
  induction pending with
  | nil => intro k acc _; simp [ptLoop, List.enumFrom]
  | cons r rest ih =>
    intro k acc hacc
    rw [show List.enumFrom k (r :: rest) = (k, r) :: List.enumFrom (k + 1) rest from rfl]
    rw [List.map_cons]
    cases hp : p (seriesGet r tc) with
    | some t =>
      rw [show ptLoop p tc (seriesGet r tc :: rest.map (fun r => seriesGet r tc)) k
            ⟨cols, acc ++ (k, r) :: List.enumFrom (k + 1) rest⟩ =
          ptLoop p tc (rest.map (fun r => seriesGet r tc)) (k + 1)
            ⟨cols, acc ++ (k, r) :: List.enumFrom (k + 1) rest⟩ from by
        simp [ptLoop, hp]]
      rw [List.append_cons]
      rw [ih (k + 1) (acc ++ [(k, r)]) (by
        intro l hl
        rw [List.map_append] at hl
        rcases List.mem_append.mp hl with h | h
        · exact lt_trans (hacc l h) (Nat.lt_succ_self k)
        · simp at h
          simp [h, Nat.lt_succ_self])]
      rw [List.filter_cons]
      rw [if_pos (by simp [hp])]
      simp
    | none =>
      have hfind : (acc ++ (k, r) :: List.enumFrom (k + 1) rest).find?
          (fun q => q.1 == k) = some (k, r) := by
        rw [List.find?_append]
        have h1 : acc.find? (fun q => q.1 == k) = none := by
          rw [List.find?_eq_none]
          intro q hq
          have := hacc q.1 (List.mem_map_of_mem Prod.fst hq)
          simp
          omega
        rw [h1]
        rw [List.find?_cons_of_pos _ (by simp)]
        rfl
      have hlv : locValue ⟨cols, acc ++ (k, r) :: List.enumFrom (k + 1) rest⟩ tc k =
          .ok (seriesGet r tc) := by
        unfold locValue
        rw [if_pos hc]
        rw [show (DataFrame.mk cols (acc ++ (k, r) :: List.enumFrom (k + 1) rest)).rows =
          acc ++ (k, r) :: List.enumFrom (k + 1) rest from rfl]
        rw [hfind]
      have hmem : k ∈ (acc ++ (k, r) :: List.enumFrom (k + 1) rest).map Prod.fst := by
        rw [List.map_append]
        exact List.mem_append.mpr (Or.inr (by simp))
      have hrows : (acc ++ (k, r) :: List.enumFrom (k + 1) rest).filter
          (fun q => decide (q.1 ≠ k)) = acc ++ List.enumFrom (k + 1) rest := by
        rw [List.filter_append]
        have h1 : acc.filter (fun q => decide (q.1 ≠ k)) = acc := by
          rw [List.filter_eq_self]
          intro q hq
          have := hacc q.1 (List.mem_map_of_mem Prod.fst hq)
          simp
          omega
        have h2 : ((k, r) :: List.enumFrom (k + 1) rest).filter
            (fun q => decide (q.1 ≠ k)) = List.enumFrom (k + 1) rest := by
          rw [List.filter_cons]
          rw [if_neg (by simp)]
          rw [List.filter_eq_self]
          intro q hq
          have := enumFrom_fst_ge rest (k + 1) q hq
          simp
          omega
        rw [h1, h2]
      have hdrop : dropRow ⟨cols, acc ++ (k, r) :: List.enumFrom (k + 1) rest⟩ k =
          .ok ⟨cols, acc ++ List.enumFrom (k + 1) rest⟩ := by
        unfold dropRow
        rw [if_pos hmem]
        rw [show (DataFrame.mk cols (acc ++ (k, r) :: List.enumFrom (k + 1) rest)).rows =
          acc ++ (k, r) :: List.enumFrom (k + 1) rest from rfl]
        rw [hrows]
      rw [show ptLoop p tc (seriesGet r tc :: rest.map (fun r => seriesGet r tc)) k
            ⟨cols, acc ++ (k, r) :: List.enumFrom (k + 1) rest⟩ =
          (do
            let _ ← locValue ⟨cols, acc ++ (k, r) :: List.enumFrom (k + 1) rest⟩ tc k
            let df2 ← dropRow ⟨cols, acc ++ (k, r) :: List.enumFrom (k + 1) rest⟩ k
            ptLoop p tc (rest.map (fun r => seriesGet r tc)) (k + 1) df2) from by
        simp [ptLoop, hp]]
      rw [hlv, hdrop]
      show ptLoop p tc (rest.map (fun r => seriesGet r tc)) (k + 1)
        ⟨cols, acc ++ List.enumFrom (k + 1) rest⟩ = _
      rw [ih (k + 1) acc (fun l hl => lt_trans (hacc l hl) (Nat.lt_succ_self k))]
      rw [List.filter_cons]
      rw [if_neg (by simp [hp])]

theorem tdl_assign (p : Value → Option Nat) (tc : String) :
    ∀ (L : List (Nat × Row)),
      ∃ parsed,
        to_datetime_list p ((L.filter (fun q => (p (seriesGet q.2 tc)).isSome)).map
            (fun q => seriesGet q.2 tc)) = .ok parsed ∧
        ((L.filter (fun q => (p (seriesGet q.2 tc)).isSome)).zip parsed).map
            (fun q => (q.1.1, setCell q.1.2 tc q.2)) =
          L.filterMap (fun q => (p (seriesGet q.2 tc)).map
            (fun t => (q.1, setCell q.2 tc (.vTime t)))) := by
  intro L
  induction L with
  | nil => exact ⟨[], rfl, rfl⟩
  | cons q L2 ih =>
    obtain ⟨parsed, h1, h2⟩ := ih
    cases hp : p (seriesGet q.2 tc) with
    | none =>
      refine ⟨parsed, ?_, ?_⟩
      · rw [List.filter_cons, if_neg (by simp [hp])]
        exact h1
      · rw [List.filter_cons, if_neg (by simp [hp]), List.filterMap_cons]
        rw [hp]
        exact h2
    | some t =>
      refine ⟨.vTime t :: parsed, ?_, ?_⟩
      · rw [List.filter_cons, if_pos (by simp [hp]), List.map_cons]
        rw [show to_datetime_list p (seriesGet q.2 tc ::
            (L2.filter (fun q => (p (seriesGet q.2 tc)).isSome)).map
              (fun q => seriesGet q.2 tc)) =
          (to_datetime_list p ((L2.filter (fun q => (p (seriesGet q.2 tc)).isSome)).map
              (fun q => seriesGet q.2 tc))).map
            (fun vs => .vTime t :: vs) from by simp [to_datetime_list, hp]]
        rw [h1]
        rfl
      · rw [List.filter_cons, if_pos (by simp [hp]), List.filterMap_cons]
        rw [hp]
        rw [List.zip_cons_cons, List.map_cons]
        rw [h2]
        rfl

/-- Claim C7: on every default-indexed table (as produced by `read_csv`)
whose schema contains the timestamp column, `parse_timestamps` removes
exactly the rows whose timestamp fails the permissive parse — no
surviving row is skipped or misindexed — and converts every surviving
timestamp cell to the parsed representation. -/
theorem C7_parse_timestamps_correct (p : Value → Option Nat) (cols : List String)
    (rows : List Row) (tc : String) (hc : tc ∈ cols) :
    parse_timestamps p ⟨cols, rows.enum⟩ tc =
      .ok ⟨cols, rows.enum.filterMap (fun q => (p (seriesGet q.2 tc)).map
          (fun t => (q.1, setCell q.2 tc (.vTime t))))⟩ := by
  unfold parse_timestamps
  have hsnap : colVals ⟨cols, rows.enum⟩ tc =
      .ok (rows.map (fun r => seriesGet r tc)) := by
    unfold colVals
    rw [if_pos hc]
    rw [show (DataFrame.mk cols rows.enum).rows = rows.enum from rfl]
    rw [show (rows.enum.map fun q => seriesGet q.2 tc) =
        ((rows.enum.map Prod.snd).map fun r => seriesGet r tc) from by
      rw [List.map_map]; rfl]
    rw [List.enum_map_snd]
  rw [hsnap]
  simp only [Bind.bind, Except.bind]
  have hloop := ptLoop_spec p tc cols hc rows 0 [] (by simp)
  rw [List.nil_append, List.nil_append] at hloop
  rw [show List.enumFrom 0 rows = rows.enum from rfl] at hloop
  rw [hloop]
  simp only [Bind.bind, Except.bind]
  have hcv2 : colVals ⟨cols, rows.enum.filter
      (fun q => (p (seriesGet q.2 tc)).isSome)⟩ tc =
      .ok ((rows.enum.filter (fun q => (p (seriesGet q.2 tc)).isSome)).map
        (fun q => seriesGet q.2 tc)) := by
    unfold colVals
    rw [if_pos hc]
  rw [hcv2]
  simp only [Bind.bind, Except.bind]
  obtain ⟨parsed, h1, h2⟩ := tdl_assign p tc rows.enum
  rw [h1]
  simp only [Bind.bind, Except.bind]
  unfold assignCol
  rw [if_pos hc]
  rw [show (DataFrame.mk cols (rows.enum.filter
      (fun q => (p (seriesGet q.2 tc)).isSome))).rows =
    rows.enum.filter (fun q => (p (seriesGet q.2 tc)).isSome) from rfl]
  rw [h2]

/-- Witness for C7 at a three-row table whose middle timestamp is
unparseable: that row is dropped and the other two are converted. -/
theorem C7_witness :
    "DateTime" ∈ (["Junction", "DateTime", "Vehicles", "ID"] : List String) ∧
      parse_timestamps sampleTimestampParser
          ⟨["Junction", "DateTime", "Vehicles", "ID"], timesRowList.enum⟩ "DateTime" =
        .ok ⟨["Junction", "DateTime", "Vehicles", "ID"],
          timesRowList.enum.filterMap
            (fun q => (sampleTimestampParser (seriesGet q.2 "DateTime")).map
              (fun t => (q.1, setCell q.2 "DateTime" (.vTime t))))⟩ :=
  ⟨by decide,
   C7_parse_timestamps_correct sampleTimestampParser
     ["Junction", "DateTime", "Vehicles", "ID"] timesRowList "DateTime" (by decide)⟩
